import Mathlib

/-!
Verification of the task-scheduling and state-reconciliation engine of the
Google Task List integration (files `google_sheet_clients.py`,
`coordinator.py`, `google_task_list/button.py`).

The Python code works on string-keyed dictionaries holding heterogeneous
values (strings, booleans, integers, `None`).  We embed dictionaries as
ordered association lists with Python `dict` semantics (insertion order
preserved, assignment to an existing key keeps its position), and cell
values as the inductive type `Value` with Python truthiness.

The external cron library (`croniter`) and the ISO-8601 parser are consumed
capabilities, not part of this repository; they are abstracted as a
`CronOracle` whose methods may fail (`Option`), matching the `try/except`
control flow of `cron_run_required`.  Instants are absolute integers
(timestamps); `astimezone` does not change the instant denoted.
-/

namespace GoogleTaskList

/-- A Python value as stored in a task-row dictionary cell. -/
inductive Value where
  | str (s : String)
  | bool (b : Bool)
  | int (n : Int)
  | none
deriving DecidableEq

/-- A Python dictionary: ordered association list with unique keys. -/
abbrev Dict := List (String × Value)

/-- Lookup of a key (Python `d[k]` / the `Some` side of `d.get(k)`). -/
def dget : Dict → String → Option Value
  | [], _ => Option.none
  | (k, v) :: rest, key => if k = key then some v else dget rest key

/-- Python `d.get(k)` with the implicit default `None`. -/
def pyGet (d : Dict) (k : String) : Value := (dget d k).getD Value.none

/-- Python `d.get(k, dflt)`. -/
def pyGetD (d : Dict) (k : String) (dflt : Value) : Value := (dget d k).getD dflt

/-- Python `d[k] = v`: overwrite in place when the key exists, append otherwise. -/
def dset : Dict → String → Value → Dict
  | [], k, v => [(k, v)]
  | (k', v') :: rest, k, v => if k' = k then (k, v) :: rest else (k', v') :: dset rest k v

/-- Python `k in d`. -/
def dhasKey (d : Dict) (k : String) : Bool := (dget d k).isSome

/-- Python truthiness of a `Value`. -/
def pyTruthy : Value → Bool
  | Value.str s => s ≠ ""
  | Value.bool b => b
  | Value.int n => n ≠ 0
  | Value.none => false

/-- ASCII lower-casing of one character (kernel-computable embedding of the
effect of Python `str.lower()` on header text). -/
def lowerChar (c : Char) : Char :=
  if 65 ≤ c.toNat ∧ c.toNat ≤ 90 then Char.ofNat (c.toNat + 32) else c

/-- Python `str.lower()`. -/
def strLower (s : String) : String := ⟨s.data.map lowerChar⟩

/-- The whitespace characters removed by Python `str.strip()`. -/
def isSpaceChar (c : Char) : Bool :=
  c = ' ' || c = '\t' || c = '\n' || c = '\r' || c = '\x0b' || c = '\x0c'

/-- Drop leading whitespace from a character list. -/
def dropSpaces : List Char → List Char
  | [] => []
  | c :: cs => if isSpaceChar c then dropSpaces cs else c :: cs

/-- Python `str.strip()`: drop whitespace from both ends. -/
def strTrim (s : String) : String :=
  ⟨((dropSpaces ((dropSpaces s.data).reverse)).reverse)⟩

/-- Python `v.strip() if isinstance(v, str) else v` (google_sheet_clients.py line 49). -/
def pyStrip : Value → Value
  | Value.str s => Value.str (strTrim s)
  | v => v

/-- Python `x or None`: `x` when truthy, else `None` (google_sheet_clients.py line 56). -/
def orNone (v : Value) : Value := if pyTruthy v then v else Value.none

/-- The dict comprehension of google_sheet_clients.py lines 48-51: lowercase
every key and strip string values; later duplicate keys overwrite earlier. -/
def lowerStrip (row : Dict) : Dict :=
  row.foldl (fun a kv => dset a (strLower kv.1) (pyStrip kv.2)) []

/-- Lines 54-58 of google_sheet_clients.py: the five normalized fields are
inserted into a fresh dict in this order, with their defaults. -/
def knownDefaults (tl : Dict) : Dict :=
  [("task", pyGetD tl "task" (Value.str "")),
   ("assigned_to", pyGetD tl "assigned_to" (Value.str "unknown")),
   ("cron_frequency", orNone (pyGet tl "cron_frequency")),
   ("last_completed", pyGetD tl "last_completed" (Value.str "")),
   ("visible", pyGetD tl "visible" (Value.bool true))]

/-- Lines 61-63 of google_sheet_clients.py: carry through any remaining field
not already present in the cleaned record. -/
def addExtras (acc : Dict) (tl : Dict) : Dict :=
  tl.foldl (fun a kv => if dhasKey a kv.1 then a else dset a kv.1 kv.2) acc

/-- The per-row normalization of `GoogleSheetsClient.get_tasks` (lines 44-64). -/
def normalizeRow (row : Dict) : Dict :=
  let tl := lowerStrip row
  addExtras (knownDefaults tl) tl

/-- The required-column set of `GoogleSheetsClient.get_tasks` (line 69). -/
def requiredFields : List String := ["task", "cron_frequency", "last_completed"]

/-- `GoogleSheetsClient.get_tasks` (lines 39-76), applied to the raw rows
returned by `get_all_records`: normalize every row, fail when there are no
rows, fail when the first normalized row misses a required column. -/
def get_tasks (rows : List Dict) : Except String (List Dict) :=
  match rows.map normalizeRow with
  | [] => Except.error "No tasks found in sheet"
  | first :: rest =>
    let missing := requiredFields.filter (fun k => ! dhasKey first k)
    if missing.isEmpty then Except.ok (first :: rest)
    else Except.error (String.append "Missing required column(s): " (String.intercalate ", " missing))

/-- The external time and cron capabilities consumed by `cron_run_required`
(coordinator.py lines 30-49): ISO-8601 parsing (`datetime.fromisoformat`,
`Option.none` models a raised exception), the croniter step
(`croniter(expr, start).get_next`, `Option.none` models a raised exception),
and the `datetime(1, 1, 1)` sentinel, all as absolute instants. -/
structure CronOracle where
  parseIso : String → Option Int
  nextAfter : String → Int → Option Int
  sentinel : Int

/-- `cron_run_required` (coordinator.py lines 20-49).  A falsy expression is
the one-time-task branch returning `last_completed_str is None`; otherwise the
anchor is the parsed last completion when truthy, else the sentinel, and the
task is due when the next occurrence after the anchor is at or before `now`.
Any exception (bad ISO string, bad cron expression, non-string argument)
yields `false`. -/
def cron_run_required (o : CronOracle) (expr last : Value) (now : Int) : Bool :=
  if pyTruthy expr = false then decide (last = Value.none)
  else
    let startOpt : Option Int :=
      if pyTruthy last then
        match last with
        | Value.str s => o.parseIso s
        | _ => Option.none
      else some o.sentinel
    match startOpt, expr with
    | some start, Value.str e =>
      match o.nextAfter e start with
      | some nr => decide (nr ≤ now)
      | Option.none => false
    | _, _ => false

/-- Lookup in `previous_data_by_name` (coordinator.py lines 101-103): the dict
comprehension keyed by `task.get("task")` keeps the last record of each name. -/
def lastByKey : List Dict → Value → Option Dict
  | [], _ => Option.none
  | p :: rest, key =>
    match lastByKey rest key with
    | some q => some q
    | Option.none => if pyGet p "task" = key then some p else Option.none

/-- The merge step of `_async_update_data` (coordinator.py lines 111-115):
carry `state` and `visible` over from the previous record of the same name,
defaulting to `not_completed` / `true`. -/
def mergeOne (prev : List Dict) (t : Dict) : Dict :=
  let key := pyGetD t "task" (Value.str "Unnamed")
  let p := (lastByKey prev key).getD []
  dset (dset t "state" (pyGetD p "state" (Value.str "not_completed")))
    "visible" (pyGetD p "visible" (Value.bool true))

/-- The merge phase over all fresh rows, in source order. -/
def mergeList (prev raws : List Dict) : List Dict := raws.map (mergeOne prev)

/-- The reactivation step of `_async_update_data` (coordinator.py lines
116-130): a merged record that is completed, has a non-`None` recurrence
expression and is reported due flips to `not_completed` / visible. -/
def reactivateOne (o : CronOracle) (now : Int) (t : Dict) : Dict :=
  let last := pyGetD t "last_completed" (Value.str "")
  let cron := pyGet t "cron_frequency"
  if pyGet t "state" = Value.str "completed" ∧ cron ≠ Value.none ∧
      cron_run_required o cron last now = true
  then dset (dset t "visible" (Value.bool true)) "state" (Value.str "not_completed")
  else t

/-- The whole reconciliation loop body of `_async_update_data` (lines
100-134): each fresh row passes through the merge step and then the
reactivation step; the output preserves the source order. -/
def reconcile (o : CronOracle) (now : Int) (prev raws : List Dict) : List Dict :=
  (mergeList prev raws).map (reactivateOne o now)

/-- `_async_update_data` (coordinator.py lines 97-138).  `fetch` is the
outcome of the external I/O (`load_sheet` plus `get_all_records`); its raw
rows then pass through `get_tasks` normalization and the reconcile loop.  Any
failure is re-raised as `UpdateFailed` (modelled as `Except.error`). -/
def asyncUpdateData (o : CronOracle) (now : Int) (prevData : Option (List Dict))
    (fetch : Except String (List Dict)) : Except String (List Dict) :=
  let prev := prevData.getD []
  match fetch with
  | Except.error e => Except.error e
  | Except.ok rawRows =>
    match get_tasks rawRows with
    | Except.error e => Except.error e
    | Except.ok raws => Except.ok (reconcile o now prev raws)

/-- The coordinator's published state: `self.data` (absent before the first
successful refresh). -/
structure CoordSimple where
  data : Option (List Dict)
deriving DecidableEq

/-- One reconciliation tick at the coordinator level: on success the new list
is published; on `UpdateFailed` the host `DataUpdateCoordinator` keeps the
previously published data and surfaces the error. -/
def tick (o : CronOracle) (now : Int) (st : CoordSimple)
    (fetch : Except String (List Dict)) : CoordSimple × Option String :=
  match asyncUpdateData o now st.data fetch with
  | Except.ok newList => (⟨some newList⟩, Option.none)
  | Except.error e => (st, some (String.append "Error fetching tasks: " e))

/-- Microseconds per minute. -/
def usPerMin : Nat := 60000000

/-- `_schedule_five_minutely_refresh` (coordinator.py lines 76-87): the next
run instant, in microseconds since a minute-0 UTC epoch.  `now + 5 minutes`,
seconds and microseconds zeroed, minute floored to a multiple of five. -/
def nextRunUs (now : Nat) : Nat :=
  let plus5 := now + 5 * usPerMin
  let truncated := plus5 - plus5 % usPerMin
  let minute := (truncated / usPerMin) % 60
  truncated - (minute % 5) * usPerMin

/-!
Heap model for the state-machine operations.  `async_complete_task`,
`async_incomplete_pending_task` and `TaskButtonEntity.async_press` operate on
the record dictionaries of the published list by reference:
`list(self.data)` copies the list of references, not the records.  We make
the references explicit: the heap is an indexed store of record dicts and the
published list `data` is a list of heap indices.
-/

/-- The coordinator's published snapshot with explicit record references. -/
structure Coord where
  heap : List Dict
  data : List Nat
deriving DecidableEq

/-- Dereference a record (an out-of-range reference reads as an empty dict,
which no well-formed snapshot produces). -/
def heapGet (h : List Dict) (r : Nat) : Dict := h.getD r []

/-- Observable externally-visible actions of a state-machine operation, in
program order. -/
inductive Ev where
  | publish (snapshot : List Dict)
  | storeWrite (task ts : String)
  | logAppend (task action user : String)
  | fireEvent (task : String)
  | haWrite
deriving DecidableEq

/-- True of the events that touch the external store (the worksheet cell
update and the audit-log append). -/
def isExternalWrite : Ev → Bool
  | Ev.storeWrite _ _ => true
  | Ev.logAppend _ _ _ => true
  | _ => false

/-- The first record of the published list whose `task` value equals the given
name (the lookup loop of coordinator.py lines 148-151 and 191-194). -/
def findTaskRef (c : Coord) (name : String) : Option Nat :=
  c.data.find? (fun r => decide (pyGet (heapGet c.heap r) "task" = Value.str name))

/-- `async_complete_task` (coordinator.py lines 140-178).  `nowStr` is the
already-formatted Central-time timestamp.  The found record is mutated in
place (state, visible, last_completed, in that order), the list of references
is re-published, then the sheet cell write and the audit-log append are
attempted; a failing external call raises, is caught by the handler (reported
flag), and nothing is rolled back. -/
def complete_task (c : Coord) (name nowStr user : String)
    (writeFails logFails : Bool) : Coord × List Ev × Bool :=
  match findTaskRef c name with
  | Option.none => (c, [], false)
  | some r =>
    let rec1 := dset (dset (dset (heapGet c.heap r) "state" (Value.str "completed"))
      "visible" (Value.bool false)) "last_completed" (Value.str nowStr)
    let heap1 := c.heap.set r rec1
    let snap := c.data.map (fun i => heapGet heap1 i)
    let evs := [Ev.publish snap, Ev.storeWrite name nowStr] ++
      (if writeFails then [] else [Ev.logAppend name "completed" user])
    (⟨heap1, c.data⟩, evs, writeFails || logFails)

/-- `TaskButtonEntity._get_task_data` (button.py lines 101-106): the first
record of the coordinator data matching this entity's task id, else `{}`. -/
def getTaskData (c : Coord) (taskId : String) : Dict :=
  match findTaskRef c taskId with
  | some r => heapGet c.heap r
  | Option.none => []

/-- The `state` property of `TaskButtonEntity` (button.py lines 76-83):
`pending` while the entity-local flag is set, otherwise the record's state
with default `not_completed`. -/
def buttonState (pendingFlag : Bool) (c : Coord) (taskId : String) : Value :=
  if pendingFlag then Value.str "pending"
  else pyGetD (getTaskData c taskId) "state" (Value.str "not_completed")

/-- `TaskButtonEntity.async_press` (button.py lines 128-161).  Guarded by the
entity-local pending flag and by a `completed` state; otherwise it sets the
flag, writes the entity state, mutates the matching record in place to
`pending`/visible (without re-publishing the list), and fires the press
event.  Returns (new flag, new coordinator state, events). -/
def press (pendingFlag : Bool) (c : Coord) (taskId : String) :
    Bool × Coord × List Ev :=
  if pendingFlag then (pendingFlag, c, [])
  else if buttonState pendingFlag c taskId = Value.str "completed" then (pendingFlag, c, [])
  else
    let c1 : Coord :=
      match findTaskRef c taskId with
      | some r =>
        let rec1 := dset (dset (heapGet c.heap r) "state" (Value.str "pending"))
          "visible" (Value.bool true)
        ⟨c.heap.set r rec1, c.data⟩
      | Option.none => c
    (true, c1, [Ev.haWrite, Ev.fireEvent taskId])

/-- True of the press-notification event fired by `async_press`. -/
def isFireEvent : Ev → Bool
  | Ev.fireEvent _ => true
  | _ => false

/-- A concrete oracle for instantiations: parsing always succeeds at instant
0 and the next cron occurrence is always instant 1. -/
def testOracle : CronOracle := ⟨fun _ => some 0, fun _ _ => some 1, 0⟩

/-- A previously held record of task `A`, completed and hidden. -/
def prevRowA : Dict :=
  [("task", Value.str "A"), ("state", Value.str "completed"), ("visible", Value.bool false)]

/-- A freshly fetched row for task `A` with a daily cron expression. -/
def freshRowA : Dict :=
  [("task", Value.str "A"), ("cron_frequency", Value.str "0 0 * * *"),
   ("last_completed", Value.str "2024-01-01T00:00:00")]

/-- A published snapshot holding one `not_completed` record for task `A`. -/
def sharedStateExample : Coord :=
  ⟨[[("task", Value.str "A"), ("state", Value.str "not_completed"),
     ("visible", Value.bool true), ("last_completed", Value.str "")]], [0]⟩

/-- A published snapshot whose record for task `A` is in state `pending`
while the entity-local pending flag is clear — the configuration left behind
by a press followed by a coordinator update (the update carries the record
state over and resets the flag). -/
def pendingSharedExample : Coord :=
  ⟨[[("task", Value.str "A"), ("state", Value.str "pending"),
     ("visible", Value.bool true)]], [0]⟩

/-- A raw sheet row whose `cron_frequency` cell is the empty string. -/
def emptyCronRow : Dict :=
  [("task", Value.str "A"), ("cron_frequency", Value.str "")]

/-- A published coordinator state with a single known task `A`. -/
def st0 : CoordSimple := ⟨some [[("task", Value.str "A")]]⟩

/-! Basic lemmas about the dictionary model. -/

theorem dget_dset_self (d : Dict) (k : String) (v : Value) :
    dget (dset d k v) k = some v := by
  induction d with
  | nil => simp [dset, dget]
  | cons kv rest ih =>
    by_cases h : kv.1 = k
    · simp [dset, dget, h]
    · simp [dset, dget, h, ih]

theorem dget_dset_ne (d : Dict) (k k' : String) (v : Value) (h : k' ≠ k) :
    dget (dset d k v) k' = dget d k' := by
  have hne : ¬ (k = k') := fun hh => h hh.symm
  induction d with
  | nil => simp [dset, dget, hne]
  | cons kv rest ih =>
    by_cases hk : kv.1 = k
    · subst hk
      simp [dset, dget, hne]
    · by_cases hk' : kv.1 = k'
      · simp [dset, dget, hk, hk', h]
      · simp [dset, dget, hk, hk', h, ih]

theorem heapGet_set_self (h : List Dict) (r : Nat) (x : Dict) (hr : r < h.length) :
    heapGet (h.set r x) r = x := by
  induction h generalizing r with
  | nil => simp at hr
  | cons d rest ih =>
    cases r with
    | zero => simp [heapGet, List.set]
    | succ n =>
      simp only [List.length_cons, Nat.succ_lt_succ_iff] at hr
      simpa [heapGet, List.set, List.getD] using ih n hr

theorem heapGet_of_le (h : List Dict) (r : Nat) (hr : h.length ≤ r) :
    heapGet h r = [] := by
  induction h generalizing r with
  | nil => cases r <;> simp [heapGet, List.getD]
  | cons d rest ih =>
    cases r with
    | zero => simp at hr
    | succ n =>
      simp only [List.length_cons, Nat.succ_le_succ_iff] at hr
      simpa [heapGet, List.getD] using ih n hr

theorem findTaskRef_spec (c : Coord) (name : String) (r : Nat)
    (h : findTaskRef c name = some r) :
    pyGet (heapGet c.heap r) "task" = Value.str name ∧ r ∈ c.data ∧
      r < c.heap.length := by
  have hp := List.find?_some h
  have hm := List.mem_of_find?_eq_some h
  have hv : pyGet (heapGet c.heap r) "task" = Value.str name := of_decide_eq_true hp
  refine ⟨hv, hm, ?_⟩
  by_contra hlt
  have hle : c.heap.length ≤ r := Nat.le_of_not_lt hlt
  rw [heapGet_of_le c.heap r hle] at hv
  simp [pyGet, dget] at hv

theorem dget_addExtras (tl : Dict) : ∀ (acc : Dict) (k : String),
    (dget acc k).isSome = true → dget (addExtras acc tl) k = dget acc k := by
  induction tl with
  | nil => intro acc k _; rfl
  | cons kv rest ih =>
    intro acc k hk
    show dget (addExtras (if dhasKey acc kv.1 then acc else dset acc kv.1 kv.2) rest) k
      = dget acc k
    by_cases hmem : dhasKey acc kv.1 = true
    · rw [if_pos hmem]
      exact ih acc k hk
    · rw [if_neg hmem]
      have hne : kv.1 ≠ k := by
        intro hh
        subst hh
        simp [dhasKey, hk] at hmem
      have hpres : dget (dset acc kv.1 kv.2) k = dget acc k :=
        dget_dset_ne acc kv.1 k kv.2 (fun hh => hne hh.symm)
      rw [ih (dset acc kv.1 kv.2) k (by rw [hpres]; exact hk), hpres]

theorem dget_normalizeRow_task (row : Dict) :
    dget (normalizeRow row) "task" =
      some (pyGetD (lowerStrip row) "task" (Value.str "")) := by
  have := dget_addExtras (lowerStrip row) (knownDefaults (lowerStrip row)) "task" (by rfl)
  simpa [normalizeRow] using this

theorem dget_normalizeRow_assigned (row : Dict) :
    dget (normalizeRow row) "assigned_to" =
      some (pyGetD (lowerStrip row) "assigned_to" (Value.str "unknown")) := by
  have := dget_addExtras (lowerStrip row) (knownDefaults (lowerStrip row)) "assigned_to" (by rfl)
  simpa [normalizeRow] using this

theorem dget_normalizeRow_cron (row : Dict) :
    dget (normalizeRow row) "cron_frequency" =
      some (orNone (pyGet (lowerStrip row) "cron_frequency")) := by
  have := dget_addExtras (lowerStrip row) (knownDefaults (lowerStrip row)) "cron_frequency" (by rfl)
  simpa [normalizeRow] using this

theorem dget_normalizeRow_last (row : Dict) :
    dget (normalizeRow row) "last_completed" =
      some (pyGetD (lowerStrip row) "last_completed" (Value.str "")) := by
  have := dget_addExtras (lowerStrip row) (knownDefaults (lowerStrip row)) "last_completed" (by rfl)
  simpa [normalizeRow] using this

theorem dget_normalizeRow_visible (row : Dict) :
    dget (normalizeRow row) "visible" =
      some (pyGetD (lowerStrip row) "visible" (Value.bool true)) := by
  have := dget_addExtras (lowerStrip row) (knownDefaults (lowerStrip row)) "visible" (by rfl)
  simpa [normalizeRow] using this

theorem orNone_ne_emptyStr (v : Value) : orNone v ≠ Value.str "" := by
  cases v with
  | str s =>
    by_cases hs : s = ""
    · subst hs; simp [orNone, pyTruthy]
    · simp [orNone, pyTruthy, hs]
  | bool b => cases b <;> simp [orNone, pyTruthy]
  | int n =>
    by_cases hn : n = 0
    · subst hn; simp [orNone, pyTruthy]
    · simp [orNone, pyTruthy, hn]
  | none => simp [orNone, pyTruthy]

theorem get_tasks_ok (rows : List Dict) (h : rows ≠ []) :
    get_tasks rows = Except.ok (rows.map normalizeRow) := by
  cases rows with
  | nil => exact absurd rfl h
  | cons r rest =>
    show get_tasks (r :: rest) = _
    have h1 : dhasKey (normalizeRow r) "task" = true := by
      simp [dhasKey, dget_normalizeRow_task]
    have h2 : dhasKey (normalizeRow r) "cron_frequency" = true := by
      simp [dhasKey, dget_normalizeRow_cron]
    have h3 : dhasKey (normalizeRow r) "last_completed" = true := by
      simp [dhasKey, dget_normalizeRow_last]
    simp [get_tasks, requiredFields, List.filter, h1, h2, h3]

/-! Claim theorems. -/

/-- C1: the claim states that with a null or empty recurrence expression the
due evaluator returns true iff the last-completion value is null or empty,
including the empty string.  The code instead tests `last_completed_str is
None`: with an empty-string last completion it returns `false` for a null or
empty expression (first two conjuncts), while it returns `true` only for the
`None` value (third conjunct).  The claim fails at
(`expr = None`, `last_completed = ""`). -/
theorem C1_one_time_empty_string (o : CronOracle) (now : Int) :
    cron_run_required o Value.none (Value.str "") now = false ∧
    cron_run_required o (Value.str "") (Value.str "") now = false ∧
    cron_run_required o Value.none Value.none now = true :=
  ⟨rfl, rfl, rfl⟩

/-- C5: the claim states that rows lacking a required column make `get_tasks`
fail with a schema error.  Evaluating `get_tasks` on a single row that lacks
`task`, `cron_frequency` and `last_completed` shows it succeeds instead: the
normalization of lines 54-58 inserts every required key with a default before
the check of lines 69-74 runs, so the schema error is unreachable. -/
theorem C5_missing_columns_not_rejected :
    get_tasks [[("foo", Value.str "bar")]] =
      Except.ok [[("task", Value.str ""), ("assigned_to", Value.str "unknown"),
        ("cron_frequency", Value.none), ("last_completed", Value.str ""),
        ("visible", Value.bool true), ("foo", Value.str "bar")]] := rfl

/-- C6: the claim states that mutations replace the published list wholesale
without mutating the records of the previous snapshot in place.  Evaluating
`async_complete_task` on a one-record snapshot shows the new published list
holds the very same record references as the old one and the shared record
itself changed from `not_completed` to `completed` — an in-place mutation a
reader holding the old snapshot observes. -/
theorem C6_snapshot_record_mutated :
    (complete_task sharedStateExample "A" "2024-05-01T10:00:00-05:00" "user" false false).1.data
      = sharedStateExample.data ∧
    dget (heapGet (complete_task sharedStateExample "A" "2024-05-01T10:00:00-05:00" "user" false false).1.heap 0)
      "state" = some (Value.str "completed") ∧
    dget (heapGet sharedStateExample.heap 0) "state" = some (Value.str "not_completed") :=
  ⟨rfl, rfl, rfl⟩

/-- C2: the reconciliation merge produces exactly one record per fresh row in
source order; every field other than `state` and `visible` is taken from the
fresh row; `state` and `visible` are carried over from the last previous
record of the same task name when one exists, and default to `not_completed`
and `true` otherwise. -/
theorem C2_merge_rule (prev raws : List Dict) (i : Nat) (t : Dict)
    (h : raws.get? i = some t) :
    (mergeList prev raws).length = raws.length ∧
    (mergeList prev raws).get? i = some (mergeOne prev t) ∧
    (∀ k, k ≠ "state" → k ≠ "visible" → dget (mergeOne prev t) k = dget t k) ∧
    (∀ p, lastByKey prev (pyGetD t "task" (Value.str "Unnamed")) = some p →
      dget (mergeOne prev t) "state" = some (pyGetD p "state" (Value.str "not_completed")) ∧
      dget (mergeOne prev t) "visible" = some (pyGetD p "visible" (Value.bool true))) ∧
    (lastByKey prev (pyGetD t "task" (Value.str "Unnamed")) = Option.none →
      dget (mergeOne prev t) "state" = some (Value.str "not_completed") ∧
      dget (mergeOne prev t) "visible" = some (Value.bool true)) := by
  refine ⟨List.length_map raws (mergeOne prev), ?_, ?_, ?_, ?_⟩
  · rw [List.get?_eq_getElem?] at h ⊢
    rw [mergeList, List.getElem?_map, h]
    rfl
  · intro k hks hkv
    show dget (dset (dset t "state" _) "visible" _) k = dget t k
    rw [dget_dset_ne _ _ _ _ hkv, dget_dset_ne _ _ _ _ hks]
  · intro p hp
    show dget (dset (dset t "state" _) "visible" _) "state" = _ ∧
      dget (dset (dset t "state" _) "visible" _) "visible" = _
    rw [hp]
    simp only [Option.getD_some]
    constructor
    · rw [dget_dset_ne _ _ _ _ (by decide), dget_dset_self]
    · rw [dget_dset_self]
  · intro hp
    show dget (dset (dset t "state" _) "visible" _) "state" = _ ∧
      dget (dset (dset t "state" _) "visible" _) "visible" = _
    rw [hp]
    simp only [Option.getD_none]
    constructor
    · rw [dget_dset_ne _ _ _ _ (by decide), dget_dset_self]
      rfl
    · rw [dget_dset_self]
      rfl

/-- C2 witness: with a previous completed hidden record for `A` and a fresh
row for `A`, the merged record carries over `state = completed` and
`visible = false`. -/
theorem C2_witness :
    dget (mergeOne [prevRowA] freshRowA) "state" = some (Value.str "completed") ∧
    dget (mergeOne [prevRowA] freshRowA) "visible" = some (Value.bool false) := by
  have h := C2_merge_rule [prevRowA] [freshRowA] 0 freshRowA rfl
  have h4 := h.2.2.2.1 prevRowA (by decide)
  exact ⟨by rw [h4.1]; rfl, by rw [h4.2]; rfl⟩

/-- C3: during reconciliation the i-th output record is exactly the i-th
merged record passed through the reactivation step (so no other step of
reconciliation reactivates), and the reactivation step flips a merged record
to `not_completed` / visible, leaving every other field unchanged, exactly
when its carried-over state is `completed`, its recurrence expression is not
`None` and the recurrence evaluator reports it due at the current time;
otherwise the record is returned unchanged. -/
theorem C3_reactivation_rule (o : CronOracle) (now : Int) (prev raws : List Dict)
    (i : Nat) (m : Dict) (h : (mergeList prev raws).get? i = some m) :
    (reconcile o now prev raws).get? i = some (reactivateOne o now m) ∧
    (pyGet m "state" = Value.str "completed" →
     pyGet m "cron_frequency" ≠ Value.none →
     cron_run_required o (pyGet m "cron_frequency")
       (pyGetD m "last_completed" (Value.str "")) now = true →
       dget (reactivateOne o now m) "state" = some (Value.str "not_completed") ∧
       dget (reactivateOne o now m) "visible" = some (Value.bool true) ∧
       ∀ k, k ≠ "state" → k ≠ "visible" → dget (reactivateOne o now m) k = dget m k) ∧
    (¬ (pyGet m "state" = Value.str "completed" ∧ pyGet m "cron_frequency" ≠ Value.none ∧
        cron_run_required o (pyGet m "cron_frequency")
          (pyGetD m "last_completed" (Value.str "")) now = true) →
      reactivateOne o now m = m) := by
  refine ⟨?_, ?_, ?_⟩
  · rw [List.get?_eq_getElem?] at h ⊢
    rw [reconcile, List.getElem?_map, h]
    rfl
  · intro h1 h2 h3
    have hc : reactivateOne o now m =
        dset (dset m "visible" (Value.bool true)) "state" (Value.str "not_completed") := by
      show (if _ ∧ _ ∧ _ then _ else m) = _
      rw [if_pos ⟨h1, h2, h3⟩]
    rw [hc]
    refine ⟨dget_dset_self _ _ _, ?_, ?_⟩
    · rw [dget_dset_ne _ _ _ _ (by decide), dget_dset_self]
    · intro k hks hkv
      rw [dget_dset_ne _ _ _ _ hks, dget_dset_ne _ _ _ _ hkv]
  · intro hneg
    show (if _ ∧ _ ∧ _ then _ else m) = m
    rw [if_neg hneg]

/-- C3 witness: with the previous record completed, a non-null cron
expression and an oracle reporting it due at instant 5, the merged record for
`A` is reactivated to `not_completed`. -/
theorem C3_witness :
    dget (reactivateOne testOracle 5 (mergeOne [prevRowA] freshRowA)) "state"
      = some (Value.str "not_completed") := by
  have h := C3_reactivation_rule testOracle 5 [prevRowA] [freshRowA] 0
    (mergeOne [prevRowA] freshRowA) rfl
  exact (h.2.1 (by decide) (by decide) (by decide)).1

/-- C4: when the fetch step fails (the external I/O raises — store
unavailable or malformed header — or the fetch succeeds with zero rows), the
tick reports a failure and the previously published coordinator state is left
exactly as it was: no new list is published. -/
theorem C4_failed_tick_preserves_list (o : CronOracle) (now : Int) (st : CoordSimple)
    (fetch : Except String (List Dict))
    (h : (∃ e, fetch = Except.error e) ∨ fetch = Except.ok []) :
    (tick o now st fetch).1 = st ∧ (tick o now st fetch).2.isSome = true := by
  rcases h with ⟨e, he⟩ | he
  · subst he
    exact ⟨rfl, rfl⟩
  · subst he
    exact ⟨rfl, rfl⟩

/-- C4 witness: a tick whose fetch returns zero rows leaves the published
one-task state `st0` untouched and reports a failure. -/
theorem C4_witness :
    (tick testOracle 0 st0 (Except.ok [])).1 = st0 ∧
    (tick testOracle 0 st0 (Except.ok [])).2.isSome = true :=
  C4_failed_tick_preserves_list testOracle 0 st0 (Except.ok []) (Or.inr rfl)

/-- C7: completing an existing task publishes the updated list (the found
record completed, hidden, stamped with the supplied timestamp) as the first
observable action, strictly before any external store write or audit-log
append is attempted; and for every outcome of the external calls — including
a failing store write — the completion is not rolled back: the record stays
completed, hidden and stamped, and a failing write is reported. -/
theorem C7_optimistic_publish (c : Coord) (name nowStr user : String) (wf lf : Bool)
    (r : Nat) (h : findTaskRef c name = some r) :
    ∃ snap rest,
      (complete_task c name nowStr user wf lf).2.1 = Ev.publish snap :: rest ∧
      (∀ e ∈ rest, isExternalWrite e = true) ∧
      (∃ d ∈ snap, dget d "task" = some (Value.str name) ∧
        dget d "state" = some (Value.str "completed") ∧
        dget d "visible" = some (Value.bool false) ∧
        dget d "last_completed" = some (Value.str nowStr)) ∧
      dget (heapGet (complete_task c name nowStr user wf lf).1.heap r) "state"
        = some (Value.str "completed") ∧
      dget (heapGet (complete_task c name nowStr user wf lf).1.heap r) "visible"
        = some (Value.bool false) ∧
      dget (heapGet (complete_task c name nowStr user wf lf).1.heap r) "last_completed"
        = some (Value.str nowStr) ∧
      (wf = true → (complete_task c name nowStr user wf lf).2.2 = true) := by
  obtain ⟨hv, hmem, hlen⟩ := findTaskRef_spec c name r h
  have htask : dget (heapGet c.heap r) "task" = some (Value.str name) := by
    revert hv
    unfold pyGet
    cases hd : dget (heapGet c.heap r) "task" with
    | none => intro hv; exact absurd hv (by simp)
    | some v => intro hv; simp only [Option.getD_some] at hv; rw [hv]
  have hck : complete_task c name nowStr user wf lf =
      (⟨c.heap.set r (dset (dset (dset (heapGet c.heap r) "state" (Value.str "completed"))
          "visible" (Value.bool false)) "last_completed" (Value.str nowStr)), c.data⟩,
        Ev.publish (c.data.map (fun i => heapGet (c.heap.set r
          (dset (dset (dset (heapGet c.heap r) "state" (Value.str "completed"))
            "visible" (Value.bool false)) "last_completed" (Value.str nowStr))) i))
          :: Ev.storeWrite name nowStr
          :: (if wf then [] else [Ev.logAppend name "completed" user]),
        wf || lf) := by
    unfold complete_task
    rw [h]
    rfl
  rw [hck]
  have hrec : heapGet ((c.heap.set r (dset (dset (dset (heapGet c.heap r) "state"
      (Value.str "completed")) "visible" (Value.bool false)) "last_completed"
      (Value.str nowStr)))) r =
      dset (dset (dset (heapGet c.heap r) "state" (Value.str "completed"))
        "visible" (Value.bool false)) "last_completed" (Value.str nowStr) :=
    heapGet_set_self _ _ _ hlen
  refine ⟨_, _, rfl, ?_, ?_, ?_, ?_, ?_, ?_⟩
  · intro e he
    cases wf with
    | true =>
      simp at he
      rw [he]; rfl
    | false =>
      simp at he
      rcases he with he | he <;> (rw [he]; rfl)
  · refine ⟨_, List.mem_map_of_mem _ hmem, ?_, ?_, ?_, ?_⟩
    · rw [hrec, dget_dset_ne _ _ _ _ (by decide), dget_dset_ne _ _ _ _ (by decide),
        dget_dset_ne _ _ _ _ (by decide), htask]
    · rw [hrec, dget_dset_ne _ _ _ _ (by decide), dget_dset_ne _ _ _ _ (by decide),
        dget_dset_self]
    · rw [hrec, dget_dset_ne _ _ _ _ (by decide), dget_dset_self]
    · rw [hrec, dget_dset_self]
  · show dget (heapGet _ r) "state" = _
    rw [hrec, dget_dset_ne _ _ _ _ (by decide), dget_dset_ne _ _ _ _ (by decide),
      dget_dset_self]
  · show dget (heapGet _ r) "visible" = _
    rw [hrec, dget_dset_ne _ _ _ _ (by decide), dget_dset_self]
  · show dget (heapGet _ r) "last_completed" = _
    rw [hrec, dget_dset_self]
  · intro hwf
    rw [hwf]
    rfl

/-- C7 witness: completing task `A` of the one-record snapshot with a failing
store write still leaves the record completed in the published state. -/
theorem C7_witness :
    dget (heapGet (complete_task sharedStateExample "A" "2024-05-01T10:05:00-05:00"
      "user" true false).1.heap 0) "state" = some (Value.str "completed") := by
  obtain ⟨snap, rest, htr, hext, hsnap, hstate, hrest⟩ :=
    C7_optimistic_publish sharedStateExample "A" "2024-05-01T10:05:00-05:00"
      "user" true false 0 rfl
  exact hstate

/-- C8 counterexample: the claim states that pressing a task that is already
pending emits no press event.  In the configuration where the record's state
is `pending` but the entity-local flag is clear (left behind by a press
followed by a coordinator update, which carries the record state over and
resets the flag), the entity's own state property reports `pending`, yet a
press fires another press event. -/
theorem C8_counterexample :
    buttonState false pendingSharedExample "A" = Value.str "pending" ∧
    Ev.fireEvent "A" ∈ (press false pendingSharedExample "A").2.2 :=
  ⟨rfl, by decide⟩

/-- C8 (amended): a press is ignored — no event, state untouched — when the
entity-local pending flag is set or when the entity's computed state is
`completed`; a successful press sets the flag, fires exactly one press event
and puts the record in state `pending`/visible, so the immediately following
press of the same entity is a no-op with no further event. -/
theorem C8_press_guards (c : Coord) (id : String) (r : Nat)
    (hfound : findTaskRef c id = some r)
    (hnc : ¬ buttonState false c id = Value.str "completed") :
    (∀ (c2 : Coord) (id2 : String), press true c2 id2 = (true, c2, [])) ∧
    (∀ (c2 : Coord) (id2 : String), buttonState false c2 id2 = Value.str "completed" →
      press false c2 id2 = (false, c2, [])) ∧
    (press false c id).1 = true ∧
    ((press false c id).2.2.filter isFireEvent).length = 1 ∧
    dget (heapGet (press false c id).2.1.heap r) "state" = some (Value.str "pending") ∧
    dget (heapGet (press false c id).2.1.heap r) "visible" = some (Value.bool true) ∧
    press (press false c id).1 (press false c id).2.1 id
      = (true, (press false c id).2.1, []) := by
  obtain ⟨hv, hmem, hlen⟩ := findTaskRef_spec c id r hfound
  have hpress : press false c id =
      (true, ⟨c.heap.set r (dset (dset (heapGet c.heap r) "state" (Value.str "pending"))
        "visible" (Value.bool true)), c.data⟩, [Ev.haWrite, Ev.fireEvent id]) := by
    unfold press
    rw [if_neg (by decide : ¬ (false = true)), if_neg hnc, hfound]
  have hrec : heapGet ((c.heap.set r (dset (dset (heapGet c.heap r) "state"
      (Value.str "pending")) "visible" (Value.bool true)))) r =
      dset (dset (heapGet c.heap r) "state" (Value.str "pending"))
        "visible" (Value.bool true) :=
    heapGet_set_self _ _ _ hlen
  refine ⟨fun c2 id2 => rfl, ?_, ?_, ?_, ?_, ?_, ?_⟩
  · intro c2 id2 hcomp
    unfold press
    rw [if_neg (by decide : ¬ (false = true)), if_pos hcomp]
  · rw [hpress]
  · rw [hpress]
    rfl
  · rw [hpress]
    show dget (heapGet _ r) "state" = _
    rw [hrec, dget_dset_ne _ _ _ _ (by decide), dget_dset_self]
  · rw [hpress]
    show dget (heapGet _ r) "visible" = _
    rw [hrec, dget_dset_self]
  · rw [hpress]
    rfl

/-- C8 witness: pressing the not-yet-pressed, not-completed task `A` puts its
record into state `pending` in the coordinator data. -/
theorem C8_witness :
    dget (heapGet (press false sharedStateExample "A").2.1.heap 0) "state"
      = some (Value.str "pending") := by
  obtain ⟨h1, h2, h3, h4, h5, h6, h7⟩ :=
    C8_press_guards sharedStateExample "A" 0 rfl (by decide)
  exact h5

/-- C9: the next refresh instant computed by
`_schedule_five_minutely_refresh` is strictly in the future, has zero seconds
and microseconds, has a minute that is a multiple of five, and is at or
before every other strictly-future instant with those properties — i.e. it
is the nearest strictly-future five-minute boundary. -/
theorem C9_next_boundary (now b : Nat) (hb : now < b)
    (hsec : b % usPerMin = 0) (hmin : ((b / usPerMin) % 60) % 5 = 0) :
    now < nextRunUs now ∧
    nextRunUs now % usPerMin = 0 ∧
    ((nextRunUs now / usPerMin) % 60) % 5 = 0 ∧
    nextRunUs now ≤ b := by
  simp only [nextRunUs, usPerMin] at *
  omega

/-- C9 witness: from the instant 299 seconds after an hour boundary, the next
refresh is scheduled exactly at the five-minute mark. -/
theorem C9_witness :
    299000000 < nextRunUs 299000000 ∧
    nextRunUs 299000000 % usPerMin = 0 ∧
    ((nextRunUs 299000000 / usPerMin) % 60) % 5 = 0 ∧
    nextRunUs 299000000 ≤ 300000000 :=
  C9_next_boundary 299000000 300000000 (by decide) (by decide) (by decide)

/-- C10: every record produced by `get_tasks` (one per raw row, in order) has
the keys `task`, `assigned_to`, `cron_frequency`, `last_completed` and
`visible`; its `cron_frequency` is never the empty string and is `None`
whenever the normalized sheet cell is missing or empty; and a record whose
`cron_frequency` is `None` passes through the reactivation step of
reconciliation unchanged. -/
theorem C10_fetch_normal_shape (rows ts : List Dict) (h : get_tasks rows = Except.ok ts)
    (i : Nat) (row : Dict) (hrow : rows.get? i = some row) :
    ts.get? i = some (normalizeRow row) ∧
    dhasKey (normalizeRow row) "task" = true ∧
    dhasKey (normalizeRow row) "assigned_to" = true ∧
    dhasKey (normalizeRow row) "cron_frequency" = true ∧
    dhasKey (normalizeRow row) "last_completed" = true ∧
    dhasKey (normalizeRow row) "visible" = true ∧
    dget (normalizeRow row) "cron_frequency" ≠ some (Value.str "") ∧
    ((dget (lowerStrip row) "cron_frequency" = Option.none ∨
      dget (lowerStrip row) "cron_frequency" = some (Value.str "")) →
      dget (normalizeRow row) "cron_frequency" = some Value.none) ∧
    (dget (normalizeRow row) "cron_frequency" = some Value.none →
      ∀ (o : CronOracle) (now : Int) (prev : List Dict),
        reactivateOne o now (mergeOne prev (normalizeRow row))
          = mergeOne prev (normalizeRow row)) := by
  have hne : rows ≠ [] := by
    intro hh
    subst hh
    simp [List.get?] at hrow
  have hts : ts = rows.map normalizeRow := by
    rw [get_tasks_ok rows hne] at h
    exact (Except.ok.inj h).symm
  refine ⟨?_, ?_, ?_, ?_, ?_, ?_, ?_, ?_, ?_⟩
  · rw [hts]
    rw [List.get?_eq_getElem?] at hrow ⊢
    rw [List.getElem?_map, hrow]
    rfl
  · simp [dhasKey, dget_normalizeRow_task]
  · simp [dhasKey, dget_normalizeRow_assigned]
  · simp [dhasKey, dget_normalizeRow_cron]
  · simp [dhasKey, dget_normalizeRow_last]
  · simp [dhasKey, dget_normalizeRow_visible]
  · rw [dget_normalizeRow_cron]
    intro heq
    exact orNone_ne_emptyStr _ (Option.some.inj heq)
  · intro hcell
    rw [dget_normalizeRow_cron]
    rcases hcell with hcell | hcell <;>
      simp [pyGet, hcell, orNone, pyTruthy]
  · intro hcron o now prev
    have hmc : dget (mergeOne prev (normalizeRow row)) "cron_frequency"
        = some Value.none := by
      show dget (dset (dset (normalizeRow row) "state" _) "visible" _) "cron_frequency" = _
      rw [dget_dset_ne _ _ _ _ (by decide), dget_dset_ne _ _ _ _ (by decide), hcron]
    show (if _ ∧ _ ∧ _ then _ else mergeOne prev (normalizeRow row)) = _
    rw [if_neg]
    intro hcond
    apply hcond.2.1
    rw [pyGet, hmc]
    rfl

/-- C10 witness: a row whose `cron_frequency` cell is the empty string
normalizes to `cron_frequency = None`. -/
theorem C10_witness :
    dget (normalizeRow emptyCronRow) "cron_frequency" = some Value.none := by
  have h := C10_fetch_normal_shape [emptyCronRow] ([emptyCronRow].map normalizeRow)
    (get_tasks_ok [emptyCronRow] (by simp)) 0 emptyCronRow rfl
  exact h.2.2.2.2.2.2.2.1 (Or.inr rfl)

end GoogleTaskList
